import Mathlib

/-!
Shallow embedding of the `light-cone-calc` cosmic-expansion model
(`src/model.ts`) and verification of the specification's claims.

JavaScript numbers are modelled by `JsNum`: exact rationals for finite
values together with the special values `NaN`, `+Infinity` and
`-Infinity`, with the usual IEEE special-value propagation rules (we do
not model rounding or signed zero).  The external collaborators —
the adaptive quadrature primitive `numerical.quad` from `@rec-math/math`
and `Math.sqrt` — are parameters of the embedding, constrained only by
their documented contracts.
-/

/-- A JavaScript number: `NaN`, `+Infinity`, `-Infinity` or a finite value
(modelled as an exact rational). -/
inductive JsNum : Type where
  | nan : JsNum
  | pinf : JsNum
  | ninf : JsNum
  | fin : ℚ → JsNum
  deriving DecidableEq, Repr

namespace JsNum

/-- JavaScript addition on `JsNum` (special values propagate as in IEEE
arithmetic; finite addition is exact). -/
def add : JsNum → JsNum → JsNum
  | nan, _ => nan
  | _, nan => nan
  | pinf, ninf => nan
  | ninf, pinf => nan
  | pinf, _ => pinf
  | _, pinf => pinf
  | ninf, _ => ninf
  | _, ninf => ninf
  | fin a, fin b => fin (a + b)

/-- JavaScript subtraction on `JsNum`. -/
def sub : JsNum → JsNum → JsNum
  | nan, _ => nan
  | _, nan => nan
  | pinf, pinf => nan
  | ninf, ninf => nan
  | pinf, _ => pinf
  | ninf, _ => ninf
  | _, pinf => ninf
  | _, ninf => pinf
  | fin a, fin b => fin (a - b)

/-- JavaScript multiplication on `JsNum` (`0 * Infinity = NaN`). -/
def mul : JsNum → JsNum → JsNum
  | nan, _ => nan
  | _, nan => nan
  | pinf, pinf => pinf
  | pinf, ninf => ninf
  | ninf, pinf => ninf
  | ninf, ninf => pinf
  | pinf, fin q => if q = 0 then nan else if 0 < q then pinf else ninf
  | fin q, pinf => if q = 0 then nan else if 0 < q then pinf else ninf
  | ninf, fin q => if q = 0 then nan else if 0 < q then ninf else pinf
  | fin q, ninf => if q = 0 then nan else if 0 < q then ninf else pinf
  | fin a, fin b => fin (a * b)

/-- JavaScript division on `JsNum` (`Infinity / Infinity = NaN`,
`x / Infinity = 0`, `x / 0` is a signed infinity or `NaN`). -/
def div : JsNum → JsNum → JsNum
  | nan, _ => nan
  | _, nan => nan
  | pinf, pinf => nan
  | pinf, ninf => nan
  | ninf, pinf => nan
  | ninf, ninf => nan
  | pinf, fin q => if 0 ≤ q then pinf else ninf
  | ninf, fin q => if 0 ≤ q then ninf else pinf
  | fin _, pinf => fin 0
  | fin _, ninf => fin 0
  | fin a, fin b =>
      if b = 0 then (if a = 0 then nan else if 0 < a then pinf else ninf)
      else fin (a / b)

/-- JavaScript `Math.abs`. -/
def abs : JsNum → JsNum
  | nan => nan
  | pinf => pinf
  | ninf => pinf
  | fin q => fin |q|

/-- JavaScript `Math.sqrt`, parameterised by a function `rsq` giving the
finite square-root values computed by the external library (negative
arguments give `NaN`). -/
def jsqrt (rsq : ℚ → ℚ) : JsNum → JsNum
  | nan => nan
  | pinf => pinf
  | ninf => nan
  | fin q => if q < 0 then nan else fin (rsq q)

/-- JavaScript strict equality `===` restricted to numbers: `NaN` is
equal to nothing, finite values compare exactly. -/
def jsEq : JsNum → JsNum → Bool
  | pinf, pinf => true
  | ninf, ninf => true
  | fin a, fin b => decide (a = b)
  | _, _ => false

/-- JavaScript `<` restricted to numbers: `NaN` compares false with
everything. -/
def jsLt : JsNum → JsNum → Prop
  | fin a, fin b => a < b
  | fin _, pinf => True
  | ninf, fin _ => True
  | ninf, pinf => True
  | _, _ => False

/-- JavaScript `<=` restricted to numbers: `NaN` compares false with
everything. -/
def jsLe : JsNum → JsNum → Prop
  | fin a, fin b => a ≤ b
  | fin _, pinf => True
  | ninf, fin _ => True
  | ninf, pinf => True
  | pinf, pinf => True
  | ninf, ninf => True
  | _, _ => False

instance : Add JsNum := ⟨add⟩
instance : Sub JsNum := ⟨sub⟩
instance : Mul JsNum := ⟨mul⟩
instance : Div JsNum := ⟨div⟩

instance (a b : JsNum) : Decidable (jsLt a b) := by
  cases a <;> cases b <;> simp [jsLt] <;> infer_instance

instance (a b : JsNum) : Decidable (jsLe a b) := by
  cases a <;> cases b <;> simp [jsLe] <;> infer_instance

/-- A `JsNum` is finite when it is `fin` of some rational. -/
def IsFin : JsNum → Prop
  | fin _ => True
  | _ => False

instance (a : JsNum) : Decidable (IsFin a) := by
  cases a <;> simp [IsFin] <;> infer_instance

end JsNum

/-! ## Data model (`src/model.ts`) -/

/-- The derived cosmological parameters (`CosmicExpansionModelProps`). -/
structure CosmicExpansionModelProps : Type where
  h0 : JsNum
  h0Gy : JsNum
  omegaLambda0 : JsNum
  OmegaK0 : JsNum
  omegaM0 : JsNum
  omegaRad0 : JsNum
  rhoCrit0 : JsNum
  temperature0 : JsNum
  rhoConst : JsNum
  gyrToSeconds : JsNum
  kmsmpscToGyr : JsNum
  deriving DecidableEq, Repr

/-- Instantaneous density state (`CosmicExpansionVariables`). -/
structure CosmicExpansionVariables : Type where
  h : JsNum
  omegaM : JsNum
  omegaLambda : JsNum
  omegaRad : JsNum
  temperature : JsNum
  rhoCrit : JsNum
  deriving DecidableEq, Repr

/-- Per-point output of the integration engine (`IntegrationResult`). -/
structure IntegrationResult : Type where
  s : JsNum
  t : JsNum
  dNow : JsNum
  dPar : JsNum
  deriving DecidableEq, Repr

/-- Final per-point output of the model (`ExpansionResult`). -/
structure ExpansionResult : Type where
  z : JsNum
  a : JsNum
  s : JsNum
  t : JsNum
  dNow : JsNum
  d : JsNum
  r : JsNum
  dPar : JsNum
  vGen : JsNum
  vNow : JsNum
  v : JsNum
  h : JsNum
  omegaM : JsNum
  omegaLambda : JsNum
  omegaRad : JsNum
  temperature : JsNum
  rhoCrit : JsNum
  deriving DecidableEq, Repr

/-- Per-segment diagnostics reported by the quadrature primitive. -/
structure QuadDiagnostics : Type where
  steps : ℚ
  errorEstimate : ℚ
  depth : ℚ
  deriving DecidableEq, Repr

/-- Result of one call to the quadrature primitive `numerical.quad`:
the grand total, top-level diagnostics, and (when several breakpoint
pairs were supplied) the per-segment integrals with their diagnostics. -/
structure QuadResult : Type where
  total : JsNum
  diag : QuadDiagnostics
  points : Option (List (JsNum × QuadDiagnostics))
  deriving DecidableEq, Repr

/-- Options passed to the quadrature primitive. -/
structure QuadOptions : Type where
  epsilon : ℚ
  deriving DecidableEq, Repr

/-- The type of the external quadrature primitive `numerical.quad`. -/
def QuadPrimitive : Type :=
  (JsNum → JsNum) → List JsNum → QuadOptions → QuadResult

/-- `quadResult[1].points || [quadResult]`: the per-segment list, falling
back to a single pseudo-segment holding the grand total when the
primitive reported no segment decomposition. -/
def pointsOrSelf (r : QuadResult) : List (JsNum × QuadDiagnostics) :=
  r.points.getD [(r.total, r.diag)]

/-! ## Rate and density functions -/

/-- `createESquaredAtStretchFunction`:
`E²(s) = omegaLambda0 + OmegaK0·s² + omegaM0·s³ + omegaRad0·s⁴`. -/
def getESquaredAtStretch (p : CosmicExpansionModelProps) (s : JsNum) : JsNum :=
  let s2 := s * s
  p.omegaLambda0 + p.OmegaK0 * s2 + p.omegaM0 * s2 * s + p.omegaRad0 * s2 * s2

/-- `createVariablesAtStretchFunction`: instantaneous density state at a
stretch value.  `rsq` is the finite part of the external `Math.sqrt`. -/
def getVariablesAtStretch (rsq : ℚ → ℚ) (p : CosmicExpansionModelProps)
    (s : JsNum) : CosmicExpansionVariables :=
  let eSquared := getESquaredAtStretch p s
  let s2 := s * s
  let h := p.h0 * JsNum.jsqrt rsq eSquared
  { h := h
    omegaM := p.omegaM0 * s2 * s / eSquared
    omegaLambda := p.omegaLambda0 / eSquared
    omegaRad := p.omegaRad0 * s2 * s2 / eSquared
    temperature := p.temperature0 * s
    rhoCrit := p.rhoCrit0 * eSquared }

/-- Integrand `TH(s) = 1 / √E²(s)` from `getIntegralFunctions`. -/
def TH (rsq : ℚ → ℚ) (p : CosmicExpansionModelProps) (s : JsNum) : JsNum :=
  JsNum.fin 1 / JsNum.jsqrt rsq (getESquaredAtStretch p s)

/-- Integrand `THs(s) = 1 / (s·√E²(s))` from `getIntegralFunctions`. -/
def THs (rsq : ℚ → ℚ) (p : CosmicExpansionModelProps) (s : JsNum) : JsNum :=
  JsNum.fin 1 / (s * JsNum.jsqrt rsq (getESquaredAtStretch p s))

/-! ## Integration engine -/

/-- `isInfinityIncluded`: the source checks whether the last entry of the
reversed stretch list is `Infinity` (JS `===` against `Infinity`). -/
def isInfinityIncluded (stretchValues : List JsNum) : Bool :=
  match stretchValues.reverse.getLast? with
  | some JsNum.pinf => true
  | _ => false

/-- The breakpoint sequence handed to the quadrature primitive: the
reversed stretch list, with `Infinity` appended unless the reversed
list already ends with it, and the sentinel `0` prepended. -/
def buildSPoints (stretchValues : List JsNum) : List JsNum :=
  let sPoints := stretchValues.reverse
  let sPoints :=
    if isInfinityIncluded stretchValues then sPoints
    else sPoints ++ [JsNum.pinf]
  JsNum.fin 0 :: sPoints

/-- The quadrature options used by the engine (`{ epsilon: 1e-8 }`). -/
def engineQuadOptions : QuadOptions := ⟨1 / 100000000⟩

/-- The `TH` segment list used by the engine (`thPoints`). -/
def thSegments (quad : QuadPrimitive) (rsq : ℚ → ℚ)
    (p : CosmicExpansionModelProps) (stretchValues : List JsNum) :
    List (JsNum × QuadDiagnostics) :=
  pointsOrSelf (quad (TH rsq p) (buildSPoints stretchValues) engineQuadOptions)

/-- The `THs` segment list used by the engine (`thsPoints`), including the
synthetic zero-valued first segment `[0, {steps: 0, errorEstimate: 0,
depth: 0}]` standing for the gap from the removed `0` sentinel. -/
def thsSegments (quad : QuadPrimitive) (rsq : ℚ → ℚ)
    (p : CosmicExpansionModelProps) (stretchValues : List JsNum) :
    List (JsNum × QuadDiagnostics) :=
  (JsNum.fin 0, ⟨0, 0, 0⟩) ::
    pointsOrSelf
      (quad (THs rsq p) (buildSPoints stretchValues).tail engineQuadOptions)

/-- The body of the engine's accumulation loop: starting at index `i`
with running sums `th`, `ths`, run `c` more iterations, each adding the
next `TH` and `THs` segment integrals and emitting one result. -/
def runLoop (h0Gy thAtOne thAtInfinity thsAtInfinity : JsNum)
    (sPts : List JsNum) (thP thsP : List (JsNum × QuadDiagnostics)) :
    ℕ → ℕ → JsNum → JsNum → List IntegrationResult
  | 0, _, _, _ => []
  | c + 1, i, th, ths =>
    let th' := th + (thP.getD i (JsNum.nan, ⟨0, 0, 0⟩)).1
    let ths' := ths + (thsP.getD i (JsNum.nan, ⟨0, 0, 0⟩)).1
    let s := sPts.getD i JsNum.nan
    { s := s
      t := (thsAtInfinity - ths') / h0Gy
      dNow := (th' - thAtOne).abs / h0Gy
      dPar := (thAtInfinity - th') / s / h0Gy } ::
      runLoop h0Gy thAtOne thAtInfinity thsAtInfinity sPts thP thsP c (i + 1)
        th' ths'

/-- `calculateExpansionForStretchValues`: the integration engine.  `quad`
is the external quadrature primitive, `rsq` the finite part of the
external `Math.sqrt`. -/
def calculateExpansionForStretchValues (quad : QuadPrimitive) (rsq : ℚ → ℚ)
    (p : CosmicExpansionModelProps) (stretchValues : List JsNum) :
    List IntegrationResult :=
  let sPoints := buildSPoints stretchValues
  let thResults := quad (TH rsq p) sPoints engineQuadOptions
  let thPoints := thSegments quad rsq p stretchValues
  let thsResults := quad (THs rsq p) sPoints.tail engineQuadOptions
  let thsPoints := thsSegments quad rsq p stretchValues
  let thAtOne :=
    (quad (TH rsq p) [JsNum.fin 0, JsNum.fin 1] engineQuadOptions).total
  let thAtInfinity := thResults.total
  let thsAtInfinity := thsResults.total
  let sPts := sPoints.tail
  let count := sPts.length - (if isInfinityIncluded stretchValues then 0 else 1)
  runLoop p.h0Gy thAtOne thAtInfinity thsAtInfinity sPts thPoints thsPoints
    count 0 (JsNum.fin 0) (JsNum.fin 0)

/-! ## Result assembler -/

/-- The record built by `createExpansionResults` for one integration
result. -/
def mkExpansionResult (rsq : ℚ → ℚ) (p : CosmicExpansionModelProps)
    (ir : IntegrationResult) : ExpansionResult :=
  let params := getVariablesAtStretch rsq p ir.s
  let hGy := params.h * p.kmsmpscToGyr
  let dNow := if JsNum.jsEq ir.s (JsNum.fin 1) then JsNum.fin 0 else ir.dNow
  { z := ir.s - JsNum.fin 1
    a := JsNum.fin 1 / ir.s
    s := ir.s
    t := ir.t
    dNow := dNow
    d := dNow / ir.s
    r := JsNum.fin 1 / hGy
    dPar := ir.dPar
    vGen := params.h / (ir.s * p.h0)
    vNow := dNow * p.h0Gy
    v := dNow * hGy / ir.s
    h := params.h
    omegaM := params.omegaM
    omegaLambda := params.omegaLambda
    omegaRad := params.omegaRad
    temperature := params.temperature
    rhoCrit := params.rhoCrit }

/-- `createExpansionResults`: iterate the integration results from last
to first (restoring the caller's original order) and build the final
records. -/
def createExpansionResults (rsq : ℚ → ℚ) (p : CosmicExpansionModelProps)
    (integrationResults : List IntegrationResult) : List ExpansionResult :=
  integrationResults.reverse.map (mkExpansionResult rsq p)

/-! ## Orchestration -/

/-- The caller's inputs to `calculateExpansion` (the `stretch` list; range
descriptions are consumed by the external stretch-value generator). -/
structure ExpansionInputs : Type where
  stretch : List JsNum

/-- `calculateAge`: integrate the single point `s = 1` and return its `t`
field directly from the `IntegrationResult`. -/
def calculateAge (quad : QuadPrimitive) (rsq : ℚ → ℚ)
    (p : CosmicExpansionModelProps) : JsNum :=
  ((calculateExpansionForStretchValues quad rsq p [JsNum.fin 1]).headD
    ⟨JsNum.nan, JsNum.nan, JsNum.nan, JsNum.nan⟩).t

/-- `calculateExpansion`: a singleton stretch list is used directly;
otherwise the external stretch-value generator `gen`
(`getStretchValues`) expands the inputs into an explicit list. -/
def calculateExpansion (quad : QuadPrimitive) (rsq : ℚ → ℚ)
    (gen : ExpansionInputs → List JsNum) (p : CosmicExpansionModelProps)
    (inputs : ExpansionInputs) : List ExpansionResult :=
  let stretchValues :=
    if inputs.stretch.length = 1 then inputs.stretch else gen inputs
  let integrationResults :=
    calculateExpansionForStretchValues quad rsq p stretchValues
  createExpansionResults rsq p integrationResults

/-! ## Parameter builder (`createProps`) -/

/-- A JavaScript object holding numeric parameters, modelled as a lookup
function (`none` = the key is absent). -/
def ParamMap : Type := String → Option ℚ

/-- The options object passed to the model constructor: the `survey` key
holds a string (or is absent); every other recognised or unrecognised
key holds a number. -/
structure CosmicExpansionModelOptions : Type where
  survey : Option String
  vals : ParamMap

/-- The survey parameter object chosen by `createProps`:
`options.survey && surveyParameters[options.survey] ?
surveyParameters[options.survey] : surveyParameters['planck2018']`
(spreading an absent object is a no-op, hence the empty fallback). -/
def chosenSurvey (surveyParameters : String → Option ParamMap)
    (options : CosmicExpansionModelOptions) : ParamMap :=
  match options.survey with
  | some key =>
    match surveyParameters key with
    | some s => s
    | none => (surveyParameters "planck2018").getD (fun _ => none)
  | none => (surveyParameters "planck2018").getD (fun _ => none)

/-- The merged parameter object
`{...physicalConstants, ...survey, ...options}` (later spreads win). -/
def mergedParams (physicalConstants : ParamMap)
    (surveyParameters : String → Option ParamMap)
    (options : CosmicExpansionModelOptions) : ParamMap :=
  fun k =>
    (options.vals k).orElse fun _ =>
      (chosenSurvey surveyParameters options k).orElse fun _ =>
        physicalConstants k

/-- Reading a key from a JavaScript object inside arithmetic: an absent
key is `undefined`, which behaves as `NaN`. -/
def readParam (m : ParamMap) (k : String) : JsNum :=
  (m k).elim JsNum.nan JsNum.fin

/-- `createProps`: derive the cosmological parameters from the merged
configuration.  The final `{h0Gy, rhoCrit0, omegaM0, omegaRad0, OmegaK0,
...props}` spread lets any merged key with the same name silently
replace the derived value. -/
def createProps (physicalConstants : ParamMap)
    (surveyParameters : String → Option ParamMap)
    (options : CosmicExpansionModelOptions) : CosmicExpansionModelProps :=
  let props := mergedParams physicalConstants surveyParameters options
  let kmsmpscToGyr := readParam props "kmsmpscToGyr"
  let h0 := readParam props "h0"
  let omega0 := readParam props "omega0"
  let omegaLambda0 := readParam props "omegaLambda0"
  let zeq := readParam props "zeq"
  let gyrToSeconds := readParam props "gyrToSeconds"
  let rhoConst := readParam props "rhoConst"
  let h0Gy := h0 * kmsmpscToGyr
  let seq := zeq + JsNum.fin 1
  let h0Seconds := h0 * kmsmpscToGyr / gyrToSeconds
  let rhoCrit0 := rhoConst * h0Seconds * h0Seconds
  let omegaM0 := (omega0 - omegaLambda0) * seq / (seq + JsNum.fin 1)
  let omegaRad0 := omegaM0 / seq
  let OmegaK0 := JsNum.fin 1 - omegaM0 - omegaRad0 - omegaLambda0
  { h0 := h0
    h0Gy := (props "h0Gy").elim h0Gy JsNum.fin
    omegaLambda0 := omegaLambda0
    OmegaK0 := (props "OmegaK0").elim OmegaK0 JsNum.fin
    omegaM0 := (props "omegaM0").elim omegaM0 JsNum.fin
    omegaRad0 := (props "omegaRad0").elim omegaRad0 JsNum.fin
    rhoCrit0 := (props "rhoCrit0").elim rhoCrit0 JsNum.fin
    temperature0 := readParam props "temperature0"
    rhoConst := rhoConst
    gyrToSeconds := gyrToSeconds
    kmsmpscToGyr := kmsmpscToGyr }

/-! ## Witness fixtures: concrete instances of the external primitives -/

/-- A concrete quadrature primitive meeting the documented contract
shape: every segment integral is `1`, the grand total is `1`. -/
def quadW : QuadPrimitive := fun _ bs _ =>
  { total := JsNum.fin 1
    diag := ⟨0, 0, 0⟩
    points := some (bs.tail.map (fun _ => (JsNum.fin 1, ⟨0, 0, 0⟩))) }

/-- A concrete stand-in for the finite part of `Math.sqrt`. -/
def rsqW : ℚ → ℚ := fun q => q

/-- A concrete parameter record for witnesses. -/
def propsW : CosmicExpansionModelProps :=
  { h0 := JsNum.fin 70
    h0Gy := JsNum.fin 1
    omegaLambda0 := JsNum.fin (7 / 10)
    OmegaK0 := JsNum.fin 0
    omegaM0 := JsNum.fin (1 / 4)
    omegaRad0 := JsNum.fin (1 / 20)
    rhoCrit0 := JsNum.fin 1
    temperature0 := JsNum.fin 3
    rhoConst := JsNum.fin 1
    gyrToSeconds := JsNum.fin 1
    kmsmpscToGyr := JsNum.fin 1 }

/-- A throwaway `ExpansionResult` used as the default of `List.headD`. -/
def junkExpansionResult : ExpansionResult :=
  { z := JsNum.nan, a := JsNum.nan, s := JsNum.nan, t := JsNum.nan
    dNow := JsNum.nan, d := JsNum.nan, r := JsNum.nan, dPar := JsNum.nan
    vGen := JsNum.nan, vNow := JsNum.nan, v := JsNum.nan, h := JsNum.nan
    omegaM := JsNum.nan, omegaLambda := JsNum.nan, omegaRad := JsNum.nan
    temperature := JsNum.nan, rhoCrit := JsNum.nan }

/-- Concrete physical-constant defaults for witnesses. -/
def physCW : ParamMap := fun k =>
  if k = "omega0" then some 1
  else if k = "omegaLambda0" then some (7 / 10)
  else if k = "zeq" then some 3
  else if k = "h0" then some 70
  else if k = "kmsmpscToGyr" then some 1
  else if k = "gyrToSeconds" then some 1
  else if k = "rhoConst" then some 1
  else if k = "temperature0" then some 3
  else none

/-- An empty survey table for witnesses. -/
def surveyPW : String → Option ParamMap := fun _ => none

/-- Empty constructor options for witnesses. -/
def optionsW : CosmicExpansionModelOptions := ⟨none, fun _ => none⟩

/-- Options whose `omegaM0` key collides with the derived field. -/
def optionsM0 : CosmicExpansionModelOptions :=
  ⟨none, fun k => if k = "omegaM0" then some 5 else none⟩

/-- Options whose `h0Gy` key collides with the derived field. -/
def optionsH0Gy : CosmicExpansionModelOptions :=
  ⟨none, fun k => if k = "h0Gy" then some 9 else none⟩

/-- The rational value of a finite `JsNum` (`0` on the special values). -/
def toQ : JsNum → ℚ
  | JsNum.fin q => q
  | _ => 0

/-! ## Loop characterisation lemmas -/

/-- The running sum maintained by the engine loop: starting at segment
index `i` with accumulator `acc`, add the next `m` segment integrals. -/
def accFrom (L : List (JsNum × QuadDiagnostics)) : ℕ → JsNum → ℕ → JsNum
  | _, acc, 0 => acc
  | i, acc, m + 1 => accFrom L (i + 1) (acc + (L.getD i (JsNum.nan, ⟨0, 0, 0⟩)).1) m

namespace JsNum

@[simp] theorem fin_add_fin (a b : ℚ) : fin a + fin b = fin (a + b) := rfl

@[simp] theorem fin_sub_fin (a b : ℚ) : fin a - fin b = fin (a - b) := rfl

@[simp] theorem fin_mul_fin (a b : ℚ) : fin a * fin b = fin (a * b) := rfl

theorem fin_div_fin (a b : ℚ) (hb : b ≠ 0) : fin a / fin b = fin (a / b) := by
  show div (fin a) (fin b) = fin (a / b)
  simp [div, hb]

@[simp] theorem fin_div_pinf (a : ℚ) : fin a / pinf = fin 0 := rfl

@[simp] theorem abs_fin (a : ℚ) : (fin a).abs = fin |a| := rfl

@[simp] theorem nan_add (a : JsNum) : nan + a = nan := by
  cases a <;> rfl

@[simp] theorem add_nan (a : JsNum) : a + nan = nan := by
  cases a <;> rfl

theorem isFin_iff (a : JsNum) : IsFin a ↔ ∃ q : ℚ, a = fin q := by
  cases a <;> simp [IsFin]

theorem not_isFin_add_right (a : JsNum) {b : JsNum} (hb : ¬ IsFin b) :
    ¬ IsFin (a + b) := by
  cases a <;> cases b <;> simp_all [IsFin, HAdd.hAdd, Add.add, add]

theorem not_isFin_mul_right (a : JsNum) {b : JsNum} (hb : ¬ IsFin b) :
    ¬ IsFin (a * b) := by
  cases a <;> cases b <;>
    simp only [IsFin, HMul.hMul, Mul.mul, mul, not_false_eq_true,
      not_true_eq_false] at hb ⊢ <;>
    first
      | exact hb
      | trivial
      | (split_ifs <;> trivial)

theorem mul_pinf_not_isFin (a : JsNum) : ¬ IsFin (a * pinf) := by
  cases a <;>
    simp only [IsFin, HMul.hMul, Mul.mul, mul] <;>
    first
      | trivial
      | (split_ifs <;> trivial)

theorem div_nan_of_not_isFin {a b : JsNum} (ha : ¬ IsFin a) (hb : ¬ IsFin b) :
    a / b = nan := by
  cases a <;> cases b <;> simp_all [IsFin, HDiv.hDiv, Div.div, div]

theorem jsqrt_not_isFin (rsq : ℚ → ℚ) {a : JsNum} (ha : ¬ IsFin a) :
    ¬ IsFin (jsqrt rsq a) := by
  cases a <;> simp_all [IsFin, jsqrt]

end JsNum

theorem runLoop_length (h0Gy tAO tAI tsAI : JsNum) (sPts : List JsNum)
    (thP thsP : List (JsNum × QuadDiagnostics)) :
    ∀ (c i : ℕ) (th ths : JsNum),
      (runLoop h0Gy tAO tAI tsAI sPts thP thsP c i th ths).length = c := by
  intro c
  induction c with
  | zero => intro i th ths; rfl
  | succ c ih =>
    intro i th ths
    simp only [runLoop, List.length_cons, ih]

theorem runLoop_getElem? (h0Gy tAO tAI tsAI : JsNum) (sPts : List JsNum)
    (thP thsP : List (JsNum × QuadDiagnostics)) :
    ∀ (c k i : ℕ) (th ths : JsNum), k < c →
      (runLoop h0Gy tAO tAI tsAI sPts thP thsP c i th ths)[k]? =
        some
          { s := sPts.getD (i + k) JsNum.nan
            t := (tsAI - accFrom thsP i ths (k + 1)) / h0Gy
            dNow := (accFrom thP i th (k + 1) - tAO).abs / h0Gy
            dPar := (tAI - accFrom thP i th (k + 1)) /
              sPts.getD (i + k) JsNum.nan / h0Gy } := by
  intro c
  induction c with
  | zero => intro k i th ths hk; omega
  | succ c ih =>
    intro k i th ths hk
    cases k with
    | zero =>
      simp only [runLoop, List.getElem?_cons_zero, Nat.add_zero]
      rfl
    | succ k =>
      have hk' : k < c := by omega
      simp only [runLoop, List.getElem?_cons_succ]
      rw [ih k (i + 1) _ _ hk']
      have hidx : i + 1 + k = i + (k + 1) := by omega
      rw [hidx]
      rfl

theorem accFrom_eq_foldl (L : List (JsNum × QuadDiagnostics)) :
    ∀ (m i : ℕ) (acc : JsNum), i + m ≤ L.length →
      accFrom L i acc m =
        ((L.drop i).take m).foldl (fun a b => a + b.1) acc := by
  intro m
  induction m with
  | zero => intro i acc _; rfl
  | succ m ih =>
    intro i acc hle
    have hi : i < L.length := by omega
    have hdrop : L.drop i = L[i] :: L.drop (i + 1) :=
      List.drop_eq_getElem_cons hi
    have hgetD : L.getD i (JsNum.nan, ⟨0, 0, 0⟩) = L[i] :=
      List.getD_eq_getElem L _ hi
    calc accFrom L i acc (m + 1)
        = accFrom L (i + 1) (acc + (L.getD i (JsNum.nan, ⟨0, 0, 0⟩)).1) m := rfl
      _ = ((L.drop (i + 1)).take m).foldl (fun a b => a + b.1)
            (acc + (L.getD i (JsNum.nan, ⟨0, 0, 0⟩)).1) := by
          exact ih (i + 1) _ (by omega)
      _ = ((L.drop i).take (m + 1)).foldl (fun a b => a + b.1) acc := by
          rw [hdrop, hgetD]
          rfl

theorem runLoop_map_s (h0Gy tAO tAI tsAI : JsNum) (sPts : List JsNum)
    (thP thsP : List (JsNum × QuadDiagnostics)) :
    ∀ (c i : ℕ) (th ths : JsNum), i + c ≤ sPts.length →
      (runLoop h0Gy tAO tAI tsAI sPts thP thsP c i th ths).map
          (fun r => r.s) =
        (sPts.drop i).take c := by
  intro c
  induction c with
  | zero => intro i th ths _; simp [runLoop]
  | succ c ih =>
    intro i th ths hle
    have hi : i < sPts.length := by omega
    have hdrop : sPts.drop i = sPts[i] :: sPts.drop (i + 1) :=
      List.drop_eq_getElem_cons hi
    simp only [runLoop, List.map_cons]
    rw [ih (i + 1) _ _ (by omega), hdrop, List.take_succ_cons,
      List.getD_eq_getElem sPts _ hi]

theorem buildSPoints_of_included (vs : List JsNum)
    (h : isInfinityIncluded vs = true) :
    buildSPoints vs = JsNum.fin 0 :: vs.reverse := by
  simp [buildSPoints, h]

theorem buildSPoints_of_not_included (vs : List JsNum)
    (h : isInfinityIncluded vs = false) :
    buildSPoints vs = JsNum.fin 0 :: (vs.reverse ++ [JsNum.pinf]) := by
  simp [buildSPoints, h]

theorem engine_count (vs : List JsNum) :
    (buildSPoints vs).tail.length -
        (if isInfinityIncluded vs then 0 else 1) = vs.length := by
  cases h : isInfinityIncluded vs with
  | true => simp [buildSPoints_of_included vs h]
  | false => simp [buildSPoints_of_not_included vs h]

theorem engine_eq_runLoop_raw (quad : QuadPrimitive) (rsq : ℚ → ℚ)
    (p : CosmicExpansionModelProps) (vs : List JsNum) :
    calculateExpansionForStretchValues quad rsq p vs =
      runLoop p.h0Gy
        (quad (TH rsq p) [JsNum.fin 0, JsNum.fin 1] engineQuadOptions).total
        (quad (TH rsq p) (buildSPoints vs) engineQuadOptions).total
        (quad (THs rsq p) (buildSPoints vs).tail engineQuadOptions).total
        (buildSPoints vs).tail (thSegments quad rsq p vs)
        (thsSegments quad rsq p vs)
        ((buildSPoints vs).tail.length -
          (if isInfinityIncluded vs then 0 else 1))
        0 (JsNum.fin 0) (JsNum.fin 0) := rfl

theorem engine_eq_runLoop (quad : QuadPrimitive) (rsq : ℚ → ℚ)
    (p : CosmicExpansionModelProps) (vs : List JsNum) :
    calculateExpansionForStretchValues quad rsq p vs =
      runLoop p.h0Gy
        (quad (TH rsq p) [JsNum.fin 0, JsNum.fin 1] engineQuadOptions).total
        (quad (TH rsq p) (buildSPoints vs) engineQuadOptions).total
        (quad (THs rsq p) (buildSPoints vs).tail engineQuadOptions).total
        (buildSPoints vs).tail (thSegments quad rsq p vs)
        (thsSegments quad rsq p vs)
        vs.length 0 (JsNum.fin 0) (JsNum.fin 0) := by
  rw [engine_eq_runLoop_raw, engine_count]

theorem engine_length (quad : QuadPrimitive) (rsq : ℚ → ℚ)
    (p : CosmicExpansionModelProps) (vs : List JsNum) :
    (calculateExpansionForStretchValues quad rsq p vs).length = vs.length := by
  rw [engine_eq_runLoop, runLoop_length]

theorem tail_buildSPoints_length (vs : List JsNum) :
    vs.length ≤ (buildSPoints vs).tail.length := by
  cases h : isInfinityIncluded vs with
  | true => simp [buildSPoints_of_included vs h]
  | false => simp [buildSPoints_of_not_included vs h]

theorem tail_buildSPoints_take (vs : List JsNum) :
    (buildSPoints vs).tail.take vs.length = vs.reverse := by
  cases h : isInfinityIncluded vs with
  | true =>
    rw [buildSPoints_of_included vs h]
    simp
  | false =>
    rw [buildSPoints_of_not_included vs h]
    have : vs.length = vs.reverse.length := by simp
    rw [List.tail_cons, this, List.take_left]

theorem engine_map_s (quad : QuadPrimitive) (rsq : ℚ → ℚ)
    (p : CosmicExpansionModelProps) (vs : List JsNum) :
    (calculateExpansionForStretchValues quad rsq p vs).map (fun r => r.s) =
      vs.reverse := by
  rw [engine_eq_runLoop,
    runLoop_map_s _ _ _ _ _ _ _ _ 0 _ _
      (by simpa using tail_buildSPoints_length vs),
    List.drop_zero, tail_buildSPoints_take]

/-! ## Assembler field lemmas -/

theorem mkExpansionResult_s (rsq : ℚ → ℚ) (p : CosmicExpansionModelProps)
    (ir : IntegrationResult) : (mkExpansionResult rsq p ir).s = ir.s := rfl

theorem mkExpansionResult_t (rsq : ℚ → ℚ) (p : CosmicExpansionModelProps)
    (ir : IntegrationResult) : (mkExpansionResult rsq p ir).t = ir.t := rfl

theorem mkExpansionResult_dPar (rsq : ℚ → ℚ) (p : CosmicExpansionModelProps)
    (ir : IntegrationResult) : (mkExpansionResult rsq p ir).dPar = ir.dPar :=
  rfl

/-! ## Claims -/

/-- C5: for every input stretch list handed to the engine (ascending,
descending or unsorted), composing the integration engine with the
result assembler yields exactly one `ExpansionResult` per requested
stretch value, whose `s` fields reproduce the caller's list in its
original order (the engine reverses the input and the assembler walks
the integration results backwards). -/
theorem claim_C5_order_preserved (quad : QuadPrimitive) (rsq : ℚ → ℚ)
    (p : CosmicExpansionModelProps) (vs : List JsNum) :
    (createExpansionResults rsq p
        (calculateExpansionForStretchValues quad rsq p vs)).map
      (fun r => r.s) = vs := by
  unfold createExpansionResults
  rw [List.map_map]
  have h1 : (fun r : ExpansionResult => r.s) ∘ mkExpansionResult rsq p =
      fun ir : IntegrationResult => ir.s :=
    funext fun ir => mkExpansionResult_s rsq p ir
  rw [h1, List.map_reverse, engine_map_s, List.reverse_reverse]

/-- C9: `calculateAge()` — which reads `t` directly off the single
`IntegrationResult` for the stretch list `[1]`, skipping the result
assembler — returns exactly the `t` field of the single result of
`calculateExpansion({stretch: [1]})`. -/
theorem claim_C9_age_refines_expansion (quad : QuadPrimitive) (rsq : ℚ → ℚ)
    (gen : ExpansionInputs → List JsNum) (p : CosmicExpansionModelProps) :
    (calculateExpansion quad rsq gen p ⟨[JsNum.fin 1]⟩).map (fun r => r.t) =
      [calculateAge quad rsq p] := by
  unfold calculateExpansion calculateAge
  simp only [List.length_cons, List.length_nil, Nat.zero_add, if_pos]
  rw [engine_eq_runLoop]
  simp [runLoop, createExpansionResults, mkExpansionResult_t]

/-- C3: `calculateExpansion({stretch: [1]})` returns exactly one
`ExpansionResult`, with `z = 0`, `a = 1`, `dNow = 0` (forced by the
`s === 1` special case regardless of the computed integral) and
`d = 0`. -/
theorem claim_C3_singleton_one (quad : QuadPrimitive) (rsq : ℚ → ℚ)
    (gen : ExpansionInputs → List JsNum) (p : CosmicExpansionModelProps) :
    (calculateExpansion quad rsq gen p ⟨[JsNum.fin 1]⟩).map
        (fun r => (r.z, r.a, r.dNow, r.d)) =
      [(JsNum.fin 0, JsNum.fin 1, JsNum.fin 0, JsNum.fin 0)] := by
  unfold calculateExpansion
  simp only [List.length_cons, List.length_nil, Nat.zero_add, if_pos]
  rw [engine_eq_runLoop]
  simp only [List.length_cons, List.length_nil]
  have hsp : buildSPoints [JsNum.fin 1] =
      [JsNum.fin 0, JsNum.fin 1, JsNum.pinf] := by
    decide
  rw [hsp]
  simp [runLoop, createExpansionResults, mkExpansionResult,
    JsNum.jsEq, JsNum.fin_div_fin]

/-- C1: for every emitted point, `t`, `dNow` and `dPar` are computed from
the running sums of the per-segment quadrature integrals (the `THs` sum
including the synthetic zero first segment), the reference integral of
`TH` over `[0, 1]`, and the two grand totals, exactly by
`t = (thsAtInfinity - ths) / h0Gy`, `dNow = |th - thAtOne| / h0Gy`,
`dPar = (thAtInfinity - th) / s / h0Gy`.  The hypotheses are the
quadrature contract: one segment per consecutive breakpoint pair. -/
theorem claim_C1_integration_fields (quad : QuadPrimitive) (rsq : ℚ → ℚ)
    (p : CosmicExpansionModelProps) (vs : List JsNum) (i : ℕ)
    (hth : (thSegments quad rsq p vs).length = (buildSPoints vs).length - 1)
    (hths : (thsSegments quad rsq p vs).length = (buildSPoints vs).length - 1)
    (hi : i < vs.length) :
    (calculateExpansionForStretchValues quad rsq p vs)[i]? =
      some
        { s := (buildSPoints vs).tail.getD i JsNum.nan
          t := ((quad (THs rsq p) (buildSPoints vs).tail
                  engineQuadOptions).total -
              ((thsSegments quad rsq p vs).take (i + 1)).foldl
                (fun a b => a + b.1) (JsNum.fin 0)) / p.h0Gy
          dNow := (((thSegments quad rsq p vs).take (i + 1)).foldl
                (fun a b => a + b.1) (JsNum.fin 0) -
              (quad (TH rsq p) [JsNum.fin 0, JsNum.fin 1]
                  engineQuadOptions).total).abs / p.h0Gy
          dPar := ((quad (TH rsq p) (buildSPoints vs)
                  engineQuadOptions).total -
              ((thSegments quad rsq p vs).take (i + 1)).foldl
                (fun a b => a + b.1) (JsNum.fin 0)) /
            (buildSPoints vs).tail.getD i JsNum.nan / p.h0Gy } := by
  have hlen : vs.length ≤ (buildSPoints vs).tail.length :=
    tail_buildSPoints_length vs
  have hbp : (buildSPoints vs).length - 1 = (buildSPoints vs).tail.length := by
    cases h : isInfinityIncluded vs with
    | true => simp [buildSPoints_of_included vs h]
    | false => simp [buildSPoints_of_not_included vs h]
  have hth' : i + 1 ≤ (thSegments quad rsq p vs).length := by
    rw [hth, hbp]; omega
  have hths' : i + 1 ≤ (thsSegments quad rsq p vs).length := by
    rw [hths, hbp]; omega
  rw [engine_eq_runLoop,
    runLoop_getElem? _ _ _ _ _ _ _ vs.length i 0 _ _ hi,
    accFrom_eq_foldl _ (i + 1) 0 _ (by omega),
    accFrom_eq_foldl _ (i + 1) 0 _ (by omega),
    List.drop_zero, List.drop_zero, Nat.zero_add]

theorem claim_C1_witness :
    (calculateExpansionForStretchValues quadW rsqW propsW [JsNum.fin 1])[0]? =
      some
        { s := JsNum.fin 1
          t := JsNum.fin 1
          dNow := JsNum.fin 0
          dPar := JsNum.fin 0 } := by
  have h :=
    claim_C1_integration_fields quadW rsqW propsW [JsNum.fin 1] 0
      (by decide) (by decide) (by decide)
  rw [h]
  simp [quadW, rsqW, propsW, thSegments, thsSegments, TH, THs, pointsOrSelf,
    buildSPoints, isInfinityIncluded, engineQuadOptions, JsNum.fin_div_fin,
    JsNum.abs]

/-! ## C2: breakpoint monotonicity -/

theorem jsLt_irrefl (a : JsNum) : ¬ JsNum.jsLt a a := by
  cases a <;> simp [JsNum.jsLt]

theorem pinf_not_jsLt (a : JsNum) : ¬ JsNum.jsLt JsNum.pinf a := by
  cases a <;> simp [JsNum.jsLt]

theorem jsLt_zero_dest {x : JsNum} (h : JsNum.jsLt (JsNum.fin 0) x) :
    x = JsNum.pinf ∨ ∃ q : ℚ, x = JsNum.fin q ∧ 0 < q := by
  cases x with
  | nan => simp [JsNum.jsLt] at h
  | pinf => exact Or.inl rfl
  | ninf => simp [JsNum.jsLt] at h
  | fin q => exact Or.inr ⟨q, rfl, h⟩

theorem isInfinityIncluded_iff_head (vs : List JsNum) :
    isInfinityIncluded vs = true ↔ vs.head? = some JsNum.pinf := by
  unfold isInfinityIncluded
  rw [List.getLast?_reverse]
  cases h : vs.head? with
  | none => simp
  | some a => cases a <;> simp

/-- C2 is false of the code: the input `[5, +Infinity]` already contains
the infinity sentinel (reversed, the sentinel is not in the last
position), yet the engine appends the sentinel again, and the breakpoint
sequence handed to the quadrature primitive has a duplicated entry; an
input with duplicated values is passed through undeduplicated as well. -/
theorem claim_C2_counterexample :
    buildSPoints [JsNum.fin 5, JsNum.pinf] =
        [JsNum.fin 0, JsNum.pinf, JsNum.fin 5, JsNum.pinf] ∧
      ¬ (buildSPoints [JsNum.fin 5, JsNum.pinf]).Nodup ∧
      ¬ (buildSPoints [JsNum.fin 5, JsNum.fin 5]).Nodup := by
  refine ⟨by decide, by decide, by decide⟩

/-- C2 amended: for strictly descending lists of positive stretch values
(the shape the external stretch-value generator contracts to produce, so
the infinity sentinel can only sit in the leading position), the
breakpoint sequence handed to the quadrature primitive is strictly
increasing and duplicate-free, and when the sentinel is already present
it is not appended a second time.  (The code performs no deduplication,
so inputs with duplicates or with the sentinel elsewhere violate the
original claim — see the counterexample.) -/
theorem claim_C2_amended (vs : List JsNum)
    (hpos : ∀ x ∈ vs, JsNum.jsLt (JsNum.fin 0) x)
    (hdesc : vs.Pairwise (fun a b => JsNum.jsLt b a)) :
    (buildSPoints vs).Pairwise JsNum.jsLt ∧ (buildSPoints vs).Nodup ∧
      (JsNum.pinf ∈ vs → buildSPoints vs = JsNum.fin 0 :: vs.reverse) := by
  have hhead : JsNum.pinf ∈ vs → vs.head? = some JsNum.pinf := by
    intro hmem
    cases vs with
    | nil => simp at hmem
    | cons a tl =>
      cases hmem with
      | head => rfl
      | tail _ hmem' =>
        exfalso
        exact pinf_not_jsLt a ((List.pairwise_cons.mp hdesc).1 _ hmem')
  have hrev : vs.reverse.Pairwise JsNum.jsLt := by
    rw [List.pairwise_reverse]
    exact hdesc
  have hposrev : ∀ x ∈ vs.reverse, JsNum.jsLt (JsNum.fin 0) x := by
    intro x hx
    exact hpos x (List.mem_reverse.mp hx)
  have hpair : (buildSPoints vs).Pairwise JsNum.jsLt := by
    cases hinc : isInfinityIncluded vs with
    | true =>
      rw [buildSPoints_of_included vs hinc, List.pairwise_cons]
      exact ⟨hposrev, hrev⟩
    | false =>
      rw [buildSPoints_of_not_included vs hinc, List.pairwise_cons]
      constructor
      · intro x hx
        rcases List.mem_append.mp hx with hx' | hx'
        · exact hposrev x hx'
        · rw [List.mem_singleton.mp hx']
          trivial
      · rw [List.pairwise_append]
        refine ⟨hrev, List.pairwise_singleton _ _, ?_⟩
        intro x hx y hy
        rw [List.mem_singleton.mp hy]
        rcases jsLt_zero_dest (hposrev x hx) with hx2 | ⟨q, hq, _⟩
        · exfalso
          have : JsNum.pinf ∈ vs := List.mem_reverse.mp (hx2 ▸ hx)
          rw [(isInfinityIncluded_iff_head vs).mpr (hhead this)] at hinc
          cases hinc
        · rw [hq]
          trivial
  refine ⟨hpair, ?_, ?_⟩
  · exact hpair.imp (fun {a b} h => by
      intro hab
      exact jsLt_irrefl a (hab ▸ h))
  · intro hmem
    exact buildSPoints_of_included vs
      ((isInfinityIncluded_iff_head vs).mpr (hhead hmem))

theorem claim_C2_amended_witness :
    (buildSPoints [JsNum.fin 5, JsNum.fin 2]).Pairwise JsNum.jsLt ∧
      (buildSPoints [JsNum.fin 5, JsNum.fin 2]).Nodup ∧
      (JsNum.pinf ∈ [JsNum.fin 5, JsNum.fin 2] →
        buildSPoints [JsNum.fin 5, JsNum.fin 2] =
          JsNum.fin 0 :: [JsNum.fin 5, JsNum.fin 2].reverse) :=
  claim_C2_amended [JsNum.fin 5, JsNum.fin 2] (by decide) (by decide)

/-! ## C4: behaviour at the infinity sentinel -/

theorem pinf_mul_not_isFin (a : JsNum) : ¬ JsNum.IsFin (JsNum.pinf * a) := by
  cases a <;>
    simp only [JsNum.IsFin, HMul.hMul, Mul.mul, JsNum.mul] <;>
    first
      | trivial
      | (split_ifs <;> trivial)

theorem isFin_add {a b : JsNum} (ha : JsNum.IsFin a) (hb : JsNum.IsFin b) :
    JsNum.IsFin (a + b) := by
  cases a <;> cases b <;> simp_all [JsNum.IsFin]

theorem foldl_add_isFin (L : List (JsNum × QuadDiagnostics))
    (hL : ∀ x ∈ L, JsNum.IsFin x.1) :
    ∀ acc : JsNum, JsNum.IsFin acc →
      JsNum.IsFin (L.foldl (fun a b => a + b.1) acc) := by
  induction L with
  | nil => intro acc hacc; exact hacc
  | cons x xs ih =>
    intro acc hacc
    simp only [List.foldl_cons]
    exact ih (fun y hy => hL y (List.mem_cons_of_mem x hy)) _
      (isFin_add hacc (hL x (List.mem_cons_self x xs)))

theorem eSquared_pinf_not_isFin (p : CosmicExpansionModelProps) :
    ¬ JsNum.IsFin (getESquaredAtStretch p JsNum.pinf) := by
  show ¬ JsNum.IsFin
    (p.omegaLambda0 + p.OmegaK0 * (JsNum.pinf * JsNum.pinf) +
      p.omegaM0 * (JsNum.pinf * JsNum.pinf) * JsNum.pinf +
      p.omegaRad0 * (JsNum.pinf * JsNum.pinf) * (JsNum.pinf * JsNum.pinf))
  have hpp : JsNum.pinf * JsNum.pinf = JsNum.pinf := rfl
  rw [hpp]
  exact JsNum.not_isFin_add_right _ (JsNum.mul_pinf_not_isFin _)

theorem vGen_nan_of_s_pinf (rsq : ℚ → ℚ) (p : CosmicExpansionModelProps)
    (ir : IntegrationResult) (hs : ir.s = JsNum.pinf) :
    (mkExpansionResult rsq p ir).vGen = JsNum.nan := by
  have hv : (mkExpansionResult rsq p ir).vGen =
      (getVariablesAtStretch rsq p ir.s).h / (ir.s * p.h0) := rfl
  have hh : (getVariablesAtStretch rsq p ir.s).h =
      p.h0 * JsNum.jsqrt rsq (getESquaredAtStretch p ir.s) := rfl
  rw [hv, hh, hs]
  exact JsNum.div_nan_of_not_isFin
    (JsNum.not_isFin_mul_right _
      (JsNum.jsqrt_not_isFin rsq (eSquared_pinf_not_isFin p)))
    (pinf_mul_not_isFin _)

/-- C4 is false of the code: requesting the `+Infinity` sentinel makes the
Hubble parameter `h(∞) = h0·√E²(∞)` infinite (or `NaN`), so
`vGen = h/(s·h0) = ∞/∞` is `NaN`, not finite — here evaluated in full on
a concrete model and quadrature instance. -/
theorem claim_C4_counterexample :
    (createExpansionResults rsqW propsW
        (calculateExpansionForStretchValues quadW rsqW propsW
          [JsNum.pinf])).map (fun r => r.vGen) = [JsNum.nan] := by
  have hlist : ∃ ir : IntegrationResult,
      calculateExpansionForStretchValues quadW rsqW propsW [JsNum.pinf] =
        [ir] ∧ ir.s = JsNum.pinf := by
    rw [engine_eq_runLoop]
    exact ⟨_, rfl, rfl⟩
  rcases hlist with ⟨ir, hl, hs⟩
  rw [hl]
  unfold createExpansionResults
  simp only [List.reverse_cons, List.reverse_nil, List.nil_append,
    List.map_cons, List.map_nil]
  rw [vGen_nan_of_s_pinf rsqW propsW ir hs]

/-- C4 amended: for a result emitted at the `+Infinity` sentinel, `dPar`
is indeed finite — equal to `0`, consistent with the grand totals, since
division by the infinite stretch annihilates the finite difference of
quadrature integrals — provided `h0Gy` is finite nonzero and the
quadrature primitive honours its contract (finite totals and segments,
one segment per breakpoint pair); but `vGen` is always `NaN` there. -/
theorem claim_C4_amended (quad : QuadPrimitive) (rsq : ℚ → ℚ)
    (p : CosmicExpansionModelProps) (vs : List JsNum) (g : ℚ)
    (hg : p.h0Gy = JsNum.fin g) (hg0 : g ≠ 0)
    (hth : (thSegments quad rsq p vs).length = (buildSPoints vs).length - 1)
    (hsegsFin : ∀ x ∈ thSegments quad rsq p vs, JsNum.IsFin x.1)
    (htotFin : JsNum.IsFin
      (quad (TH rsq p) (buildSPoints vs) engineQuadOptions).total)
    (er : ExpansionResult)
    (her : er ∈ createExpansionResults rsq p
      (calculateExpansionForStretchValues quad rsq p vs))
    (hs : er.s = JsNum.pinf) :
    er.dPar = JsNum.fin 0 ∧ er.vGen = JsNum.nan := by
  unfold createExpansionResults at her
  rcases List.mem_map.mp her with ⟨ir, hirmem, hirer⟩
  have hirmem' : ir ∈ calculateExpansionForStretchValues quad rsq p vs :=
    List.mem_reverse.mp hirmem
  have hirs : ir.s = JsNum.pinf := by
    rw [← hirer] at hs
    exact hs
  constructor
  · rw [← hirer, mkExpansionResult_dPar]
    rcases List.getElem_of_mem hirmem' with ⟨i, hi, hget⟩
    have hi' : i < vs.length := by
      rw [engine_length quad rsq p vs] at hi
      exact hi
    have hsome : (calculateExpansionForStretchValues quad rsq p vs)[i]? =
        some ir := by
      rw [List.getElem?_eq_getElem hi, hget]
    rw [engine_eq_runLoop,
      runLoop_getElem? _ _ _ _ _ _ _ vs.length i 0 _ _ hi', Nat.zero_add]
      at hsome
    have hIR := (Option.some_inj.mp hsome).symm
    have hbp : (buildSPoints vs).length - 1 =
        (buildSPoints vs).tail.length := by
      cases h : isInfinityIncluded vs with
      | true => simp [buildSPoints_of_included vs h]
      | false => simp [buildSPoints_of_not_included vs h]
    have hlen : vs.length ≤ (buildSPoints vs).tail.length :=
      tail_buildSPoints_length vs
    have hth' : 0 + (i + 1) ≤ (thSegments quad rsq p vs).length := by
      rw [hth, hbp]
      omega
    have hsPts : (buildSPoints vs).tail.getD i JsNum.nan = JsNum.pinf := by
      rw [← hirs, hIR]
    have hdPar : ir.dPar =
        ((quad (TH rsq p) (buildSPoints vs) engineQuadOptions).total -
            accFrom (thSegments quad rsq p vs) 0 (JsNum.fin 0) (i + 1)) /
          JsNum.pinf / p.h0Gy := by
      rw [hIR, hsPts]
    have hfin : JsNum.IsFin
        (accFrom (thSegments quad rsq p vs) 0 (JsNum.fin 0) (i + 1)) := by
      rw [accFrom_eq_foldl _ (i + 1) 0 _ hth', List.drop_zero]
      refine foldl_add_isFin _ ?_ _ trivial
      intro x hx
      exact hsegsFin x (List.mem_of_mem_take hx)
    rcases (JsNum.isFin_iff _).mp hfin with ⟨c1, hc1⟩
    rcases (JsNum.isFin_iff _).mp htotFin with ⟨cT, hcT⟩
    rw [hdPar, hc1, hcT, JsNum.fin_sub_fin, JsNum.fin_div_pinf, hg,
      JsNum.fin_div_fin 0 g hg0, zero_div]
  · rw [← hirer]
    exact vGen_nan_of_s_pinf rsq p ir hirs

theorem claim_C4_amended_witness :
    ((createExpansionResults rsqW propsW
        (calculateExpansionForStretchValues quadW rsqW propsW
          [JsNum.pinf])).headD junkExpansionResult).dPar = JsNum.fin 0 ∧
      ((createExpansionResults rsqW propsW
        (calculateExpansionForStretchValues quadW rsqW propsW
          [JsNum.pinf])).headD junkExpansionResult).vGen = JsNum.nan := by
  have hconc : createExpansionResults rsqW propsW
      (calculateExpansionForStretchValues quadW rsqW propsW [JsNum.pinf]) =
      [(createExpansionResults rsqW propsW
        (calculateExpansionForStretchValues quadW rsqW propsW
          [JsNum.pinf])).headD junkExpansionResult] := rfl
  refine claim_C4_amended quadW rsqW propsW [JsNum.pinf] 1 rfl one_ne_zero
    (by decide) (by decide) (by decide) _ ?_ rfl
  rw [hconc]
  exact List.mem_singleton_self _

/-! ## C7: density-state sum identity -/

theorem density_sum_rat (l k m r q e : ℚ)
    (he : e = l + k * (q * q) + m * (q * q) * q + r * (q * q) * (q * q))
    (he0 : e ≠ 0) :
    m * (q * q) * q / e + l / e + r * (q * q) * (q * q) / e =
      1 - k * (q * q) / e := by
  have hnum : m * (q * q) * q + l + r * (q * q) * (q * q) = e - k * (q * q) := by
    rw [he]
    ring
  rw [div_add_div_same, div_add_div_same, hnum, sub_div, div_self he0]

theorem eSquared_fin (p : CosmicExpansionModelProps) (l k m r q : ℚ)
    (hl : p.omegaLambda0 = JsNum.fin l) (hk : p.OmegaK0 = JsNum.fin k)
    (hm : p.omegaM0 = JsNum.fin m) (hr : p.omegaRad0 = JsNum.fin r) :
    getESquaredAtStretch p (JsNum.fin q) =
      JsNum.fin (l + k * (q * q) + m * (q * q) * q + r * (q * q) * (q * q)) := by
  unfold getESquaredAtStretch
  rw [hl, hk, hm, hr]
  simp only [JsNum.fin_mul_fin, JsNum.fin_add_fin]

/-- C7: at every finite stretch `s > 0` with `E²(s) ≠ 0` and finite
density parameters, the density-state function satisfies
`omegaM + omegaLambda + omegaRad = 1 - OmegaK0·s²/E²(s)`; and when the
present-day parameters sum to one (the construction invariant), the
three components plus curvature sum exactly to `1` at `s = 1`. -/
theorem claim_C7_density_sum (rsq : ℚ → ℚ) (p : CosmicExpansionModelProps)
    (l k m r q : ℚ)
    (hl : p.omegaLambda0 = JsNum.fin l) (hk : p.OmegaK0 = JsNum.fin k)
    (hm : p.omegaM0 = JsNum.fin m) (hr : p.omegaRad0 = JsNum.fin r)
    (hq : 0 < q)
    (he0 : l + k * (q * q) + m * (q * q) * q + r * (q * q) * (q * q) ≠ 0) :
    ((getVariablesAtStretch rsq p (JsNum.fin q)).omegaM +
        (getVariablesAtStretch rsq p (JsNum.fin q)).omegaLambda +
        (getVariablesAtStretch rsq p (JsNum.fin q)).omegaRad =
      JsNum.fin (1 - k * (q * q) /
        (l + k * (q * q) + m * (q * q) * q + r * (q * q) * (q * q)))) ∧
      (m + r + l + k = 1 →
        (getVariablesAtStretch rsq p (JsNum.fin 1)).omegaM +
            (getVariablesAtStretch rsq p (JsNum.fin 1)).omegaLambda +
            (getVariablesAtStretch rsq p (JsNum.fin 1)).omegaRad + p.OmegaK0 =
          JsNum.fin 1) := by
  constructor
  · have hM : (getVariablesAtStretch rsq p (JsNum.fin q)).omegaM =
        p.omegaM0 * (JsNum.fin q * JsNum.fin q) * JsNum.fin q /
          getESquaredAtStretch p (JsNum.fin q) := rfl
    have hL : (getVariablesAtStretch rsq p (JsNum.fin q)).omegaLambda =
        p.omegaLambda0 / getESquaredAtStretch p (JsNum.fin q) := rfl
    have hR : (getVariablesAtStretch rsq p (JsNum.fin q)).omegaRad =
        p.omegaRad0 * (JsNum.fin q * JsNum.fin q) *
            (JsNum.fin q * JsNum.fin q) /
          getESquaredAtStretch p (JsNum.fin q) := rfl
    rw [hM, hL, hR, eSquared_fin p l k m r q hl hk hm hr, hl, hm, hr]
    simp only [JsNum.fin_mul_fin]
    rw [JsNum.fin_div_fin _ _ he0, JsNum.fin_div_fin _ _ he0,
      JsNum.fin_div_fin _ _ he0]
    simp only [JsNum.fin_add_fin]
    rw [density_sum_rat l k m r q _ rfl he0]
  · intro hsum
    have he1 : l + k * (1 * 1) + m * (1 * 1) * 1 + r * (1 * 1) * (1 * 1) =
        1 := by
      have h2 : l + k * ((1 : ℚ) * 1) + m * (1 * 1) * 1 + r * (1 * 1) * (1 * 1)
          = m + r + l + k := by ring
      rw [h2, hsum]
    have he10 : l + k * ((1 : ℚ) * 1) + m * (1 * 1) * 1 +
        r * (1 * 1) * (1 * 1) ≠ 0 := by
      rw [he1]
      exact one_ne_zero
    have hM : (getVariablesAtStretch rsq p (JsNum.fin 1)).omegaM =
        p.omegaM0 * (JsNum.fin 1 * JsNum.fin 1) * JsNum.fin 1 /
          getESquaredAtStretch p (JsNum.fin 1) := rfl
    have hL : (getVariablesAtStretch rsq p (JsNum.fin 1)).omegaLambda =
        p.omegaLambda0 / getESquaredAtStretch p (JsNum.fin 1) := rfl
    have hR : (getVariablesAtStretch rsq p (JsNum.fin 1)).omegaRad =
        p.omegaRad0 * (JsNum.fin 1 * JsNum.fin 1) *
            (JsNum.fin 1 * JsNum.fin 1) /
          getESquaredAtStretch p (JsNum.fin 1) := rfl
    rw [hM, hL, hR, eSquared_fin p l k m r 1 hl hk hm hr, hl, hm, hr, hk]
    simp only [JsNum.fin_mul_fin]
    rw [JsNum.fin_div_fin _ _ he10, JsNum.fin_div_fin _ _ he10,
      JsNum.fin_div_fin _ _ he10]
    simp only [JsNum.fin_add_fin]
    rw [he1]
    norm_num
    linarith

theorem claim_C7_witness :
    ((getVariablesAtStretch rsqW propsW (JsNum.fin 2)).omegaM +
        (getVariablesAtStretch rsqW propsW (JsNum.fin 2)).omegaLambda +
        (getVariablesAtStretch rsqW propsW (JsNum.fin 2)).omegaRad =
      JsNum.fin (1 - 0 * ((2 : ℚ) * 2) /
        (7 / 10 + 0 * ((2 : ℚ) * 2) + 1 / 4 * (2 * 2) * 2 +
          1 / 20 * (2 * 2) * (2 * 2)))) ∧
      ((1 : ℚ) / 4 + 1 / 20 + 7 / 10 + 0 = 1 →
        (getVariablesAtStretch rsqW propsW (JsNum.fin 1)).omegaM +
            (getVariablesAtStretch rsqW propsW (JsNum.fin 1)).omegaLambda +
            (getVariablesAtStretch rsqW propsW (JsNum.fin 1)).omegaRad +
            propsW.OmegaK0 =
          JsNum.fin 1) :=
  claim_C7_density_sum rsqW propsW (7 / 10) 0 (1 / 4) (1 / 20) 2
    rfl rfl rfl rfl (by norm_num) (by norm_num)

/-! ## C6 and C10: parameter derivation and the final spread -/

theorem createProps_omegaLambda0 (physC : ParamMap)
    (surveyP : String → Option ParamMap)
    (options : CosmicExpansionModelOptions) :
    (createProps physC surveyP options).omegaLambda0 =
      readParam (mergedParams physC surveyP options) "omegaLambda0" := rfl

theorem createProps_omegaM0 (physC : ParamMap)
    (surveyP : String → Option ParamMap)
    (options : CosmicExpansionModelOptions) :
    (createProps physC surveyP options).omegaM0 =
      (mergedParams physC surveyP options "omegaM0").elim
        ((readParam (mergedParams physC surveyP options) "omega0" -
            readParam (mergedParams physC surveyP options) "omegaLambda0") *
          (readParam (mergedParams physC surveyP options) "zeq" +
            JsNum.fin 1) /
          (readParam (mergedParams physC surveyP options) "zeq" +
            JsNum.fin 1 + JsNum.fin 1))
        JsNum.fin := rfl

theorem createProps_omegaRad0 (physC : ParamMap)
    (surveyP : String → Option ParamMap)
    (options : CosmicExpansionModelOptions) :
    (createProps physC surveyP options).omegaRad0 =
      (mergedParams physC surveyP options "omegaRad0").elim
        ((readParam (mergedParams physC surveyP options) "omega0" -
            readParam (mergedParams physC surveyP options) "omegaLambda0") *
          (readParam (mergedParams physC surveyP options) "zeq" +
            JsNum.fin 1) /
          (readParam (mergedParams physC surveyP options) "zeq" +
            JsNum.fin 1 + JsNum.fin 1) /
          (readParam (mergedParams physC surveyP options) "zeq" +
            JsNum.fin 1))
        JsNum.fin := rfl

theorem createProps_OmegaK0 (physC : ParamMap)
    (surveyP : String → Option ParamMap)
    (options : CosmicExpansionModelOptions) :
    (createProps physC surveyP options).OmegaK0 =
      (mergedParams physC surveyP options "OmegaK0").elim
        (JsNum.fin 1 -
          (readParam (mergedParams physC surveyP options) "omega0" -
              readParam (mergedParams physC surveyP options) "omegaLambda0") *
            (readParam (mergedParams physC surveyP options) "zeq" +
              JsNum.fin 1) /
            (readParam (mergedParams physC surveyP options) "zeq" +
              JsNum.fin 1 + JsNum.fin 1) -
          (readParam (mergedParams physC surveyP options) "omega0" -
              readParam (mergedParams physC surveyP options) "omegaLambda0") *
            (readParam (mergedParams physC surveyP options) "zeq" +
              JsNum.fin 1) /
            (readParam (mergedParams physC surveyP options) "zeq" +
              JsNum.fin 1 + JsNum.fin 1) /
            (readParam (mergedParams physC surveyP options) "zeq" +
              JsNum.fin 1) -
          readParam (mergedParams physC surveyP options) "omegaLambda0")
        JsNum.fin := rfl

theorem createProps_h0Gy (physC : ParamMap)
    (surveyP : String → Option ParamMap)
    (options : CosmicExpansionModelOptions) :
    (createProps physC surveyP options).h0Gy =
      (mergedParams physC surveyP options "h0Gy").elim
        (readParam (mergedParams physC surveyP options) "h0" *
          readParam (mergedParams physC surveyP options) "kmsmpscToGyr")
        JsNum.fin := rfl

theorem createProps_rhoCrit0 (physC : ParamMap)
    (surveyP : String → Option ParamMap)
    (options : CosmicExpansionModelOptions) :
    (createProps physC surveyP options).rhoCrit0 =
      (mergedParams physC surveyP options "rhoCrit0").elim
        (readParam (mergedParams physC surveyP options) "rhoConst" *
          (readParam (mergedParams physC surveyP options) "h0" *
            readParam (mergedParams physC surveyP options) "kmsmpscToGyr" /
            readParam (mergedParams physC surveyP options) "gyrToSeconds") *
          (readParam (mergedParams physC surveyP options) "h0" *
            readParam (mergedParams physC surveyP options) "kmsmpscToGyr" /
            readParam (mergedParams physC surveyP options) "gyrToSeconds"))
        JsNum.fin := rfl

/-- C6: whenever the merged configuration (defaults, chosen preset and
overrides, merged with later-wins precedence) supplies finite `omega0`,
`omegaLambda0` and `zeq`, and no layer collides with a derived key, the
derived parameters satisfy
`omegaM0 = (omega0 - omegaLambda0)·(zeq+1)/(zeq+2)`,
`omegaRad0 = omegaM0/(zeq+1)`, and
`omegaM0 + omegaRad0 + omegaLambda0 + OmegaK0 = 1` (curvature absorbs
the residual).  The record is a pure function of the inputs — nothing
mutates it after construction. -/
theorem claim_C6_derived_invariant (physC : ParamMap)
    (surveyP : String → Option ParamMap)
    (options : CosmicExpansionModelOptions) (w0 l0 z : ℚ)
    (hw : mergedParams physC surveyP options "omega0" = some w0)
    (hl : mergedParams physC surveyP options "omegaLambda0" = some l0)
    (hz : mergedParams physC surveyP options "zeq" = some z)
    (hM : mergedParams physC surveyP options "omegaM0" = none)
    (hR : mergedParams physC surveyP options "omegaRad0" = none)
    (hK : mergedParams physC surveyP options "OmegaK0" = none)
    (hz1 : z + 1 ≠ 0) (hz2 : z + 2 ≠ 0) :
    (createProps physC surveyP options).omegaM0 =
        JsNum.fin ((w0 - l0) * (z + 1) / (z + 2)) ∧
      (createProps physC surveyP options).omegaRad0 =
        JsNum.fin ((w0 - l0) * (z + 1) / (z + 2) / (z + 1)) ∧
      (createProps physC surveyP options).omegaM0 +
          (createProps physC surveyP options).omegaRad0 +
          (createProps physC surveyP options).omegaLambda0 +
          (createProps physC surveyP options).OmegaK0 =
        JsNum.fin 1 := by
  have hz2' : z + 1 + 1 ≠ 0 := by
    intro h
    exact hz2 (by linarith)
  have hw' : readParam (mergedParams physC surveyP options) "omega0" =
      JsNum.fin w0 := by
    unfold readParam
    rw [hw]
    rfl
  have hl' : readParam (mergedParams physC surveyP options) "omegaLambda0" =
      JsNum.fin l0 := by
    unfold readParam
    rw [hl]
    rfl
  have hz' : readParam (mergedParams physC surveyP options) "zeq" =
      JsNum.fin z := by
    unfold readParam
    rw [hz]
    rfl
  have hM1 : (createProps physC surveyP options).omegaM0 =
      JsNum.fin ((w0 - l0) * (z + 1) / (z + 1 + 1)) := by
    rw [createProps_omegaM0, hM, hw', hl', hz']
    simp only [Option.elim_none, JsNum.fin_sub_fin, JsNum.fin_add_fin,
      JsNum.fin_mul_fin]
    rw [JsNum.fin_div_fin _ _ hz2']
  have heq : (w0 - l0) * (z + 1) / (z + 1 + 1) =
      (w0 - l0) * (z + 1) / (z + 2) := by
    have h12 : z + 1 + 1 = z + 2 := by ring
    rw [h12]
  have hR1 : (createProps physC surveyP options).omegaRad0 =
      JsNum.fin ((w0 - l0) * (z + 1) / (z + 1 + 1) / (z + 1)) := by
    rw [createProps_omegaRad0, hR, hw', hl', hz']
    simp only [Option.elim_none, JsNum.fin_sub_fin, JsNum.fin_add_fin,
      JsNum.fin_mul_fin]
    rw [JsNum.fin_div_fin _ _ hz2', JsNum.fin_div_fin _ _ hz1]
  have hK1 : (createProps physC surveyP options).OmegaK0 =
      JsNum.fin (1 - (w0 - l0) * (z + 1) / (z + 1 + 1) -
        (w0 - l0) * (z + 1) / (z + 1 + 1) / (z + 1) - l0) := by
    rw [createProps_OmegaK0, hK, hw', hl', hz']
    simp only [Option.elim_none, JsNum.fin_sub_fin, JsNum.fin_add_fin,
      JsNum.fin_mul_fin]
    rw [JsNum.fin_div_fin _ _ hz2', JsNum.fin_div_fin _ _ hz1]
    simp only [JsNum.fin_sub_fin]
  refine ⟨by rw [hM1, heq], by rw [hR1, heq], ?_⟩
  rw [hM1, hR1, hK1, createProps_omegaLambda0, hl']
  simp only [JsNum.fin_add_fin]
  refine congrArg JsNum.fin ?_
  ring

theorem claim_C6_witness :
    (createProps physCW surveyPW optionsW).omegaM0 =
        JsNum.fin ((1 - 7 / 10) * ((3 : ℚ) + 1) / (3 + 2)) ∧
      (createProps physCW surveyPW optionsW).omegaRad0 =
        JsNum.fin ((1 - 7 / 10) * ((3 : ℚ) + 1) / (3 + 2) / (3 + 1)) ∧
      (createProps physCW surveyPW optionsW).omegaM0 +
          (createProps physCW surveyPW optionsW).omegaRad0 +
          (createProps physCW surveyPW optionsW).omegaLambda0 +
          (createProps physCW surveyPW optionsW).OmegaK0 =
        JsNum.fin 1 :=
  claim_C6_derived_invariant physCW surveyPW optionsW 1 (7 / 10) 3
    rfl rfl rfl rfl rfl rfl (by norm_num) (by norm_num)

/-- C10 (implicit): because `createProps` spreads the merged options
object last into the returned record, a construction option whose key
collides with any derived field (`h0Gy`, `rhoCrit0`, `omegaM0`,
`omegaRad0`, `OmegaK0`) silently replaces the derived value; in
particular a caller can override `omegaM0` and break the sum-to-one
curvature invariant, with no rejection of the colliding key. -/
theorem claim_C10_spread_override :
    (∀ (physC : ParamMap) (surveyP : String → Option ParamMap)
        (options : CosmicExpansionModelOptions) (v : ℚ),
        options.vals "h0Gy" = some v →
          (createProps physC surveyP options).h0Gy = JsNum.fin v) ∧
      (∀ (physC : ParamMap) (surveyP : String → Option ParamMap)
          (options : CosmicExpansionModelOptions) (v : ℚ),
          options.vals "rhoCrit0" = some v →
            (createProps physC surveyP options).rhoCrit0 = JsNum.fin v) ∧
      (∀ (physC : ParamMap) (surveyP : String → Option ParamMap)
          (options : CosmicExpansionModelOptions) (v : ℚ),
          options.vals "omegaM0" = some v →
            (createProps physC surveyP options).omegaM0 = JsNum.fin v) ∧
      (∀ (physC : ParamMap) (surveyP : String → Option ParamMap)
          (options : CosmicExpansionModelOptions) (v : ℚ),
          options.vals "omegaRad0" = some v →
            (createProps physC surveyP options).omegaRad0 = JsNum.fin v) ∧
      (∀ (physC : ParamMap) (surveyP : String → Option ParamMap)
          (options : CosmicExpansionModelOptions) (v : ℚ),
          options.vals "OmegaK0" = some v →
            (createProps physC surveyP options).OmegaK0 = JsNum.fin v) ∧
      ((createProps physCW surveyPW optionsM0).omegaM0 = JsNum.fin 5 ∧
        (createProps physCW surveyPW optionsM0).omegaM0 +
            (createProps physCW surveyPW optionsM0).omegaRad0 +
            (createProps physCW surveyPW optionsM0).omegaLambda0 +
            (createProps physCW surveyPW optionsM0).OmegaK0 ≠
          JsNum.fin 1) := by
  have hmerge : ∀ (physC : ParamMap) (surveyP : String → Option ParamMap)
      (options : CosmicExpansionModelOptions) (k : String) (v : ℚ),
      options.vals k = some v →
        mergedParams physC surveyP options k = some v := by
    intro physC surveyP options k v hv
    unfold mergedParams
    rw [hv]
    rfl
  refine ⟨?_, ?_, ?_, ?_, ?_, ?_, ?_⟩
  · intro physC surveyP options v hv
    rw [createProps_h0Gy, hmerge physC surveyP options _ v hv]
    rfl
  · intro physC surveyP options v hv
    rw [createProps_rhoCrit0, hmerge physC surveyP options _ v hv]
    rfl
  · intro physC surveyP options v hv
    rw [createProps_omegaM0, hmerge physC surveyP options _ v hv]
    rfl
  · intro physC surveyP options v hv
    rw [createProps_omegaRad0, hmerge physC surveyP options _ v hv]
    rfl
  · intro physC surveyP options v hv
    rw [createProps_OmegaK0, hmerge physC surveyP options _ v hv]
    rfl
  · rw [createProps_omegaM0]
    rfl
  · have hM5 : (createProps physCW surveyPW optionsM0).omegaM0 =
        JsNum.fin 5 := rfl
    have hRd : (createProps physCW surveyPW optionsM0).omegaRad0 =
        JsNum.fin ((1 - 7 / 10) * ((3 : ℚ) + 1) / (3 + 1 + 1) / (3 + 1)) := by
      rw [createProps_omegaRad0]
      have h1 : mergedParams physCW surveyPW optionsM0 "omegaRad0" =
          none := rfl
      have h2 : readParam (mergedParams physCW surveyPW optionsM0) "omega0" =
          JsNum.fin 1 := rfl
      have h3 : readParam (mergedParams physCW surveyPW optionsM0)
          "omegaLambda0" = JsNum.fin (7 / 10) := rfl
      have h4 : readParam (mergedParams physCW surveyPW optionsM0) "zeq" =
          JsNum.fin 3 := rfl
      rw [h1, h2, h3, h4]
      simp only [Option.elim_none, JsNum.fin_sub_fin, JsNum.fin_add_fin,
        JsNum.fin_mul_fin]
      rw [JsNum.fin_div_fin _ _ (by norm_num : (3 : ℚ) + 1 + 1 ≠ 0),
        JsNum.fin_div_fin _ _ (by norm_num : (3 : ℚ) + 1 ≠ 0)]
    have hKd : (createProps physCW surveyPW optionsM0).OmegaK0 =
        JsNum.fin (1 - (1 - 7 / 10) * ((3 : ℚ) + 1) / (3 + 1 + 1) -
          (1 - 7 / 10) * ((3 : ℚ) + 1) / (3 + 1 + 1) / (3 + 1) - 7 / 10) := by
      rw [createProps_OmegaK0]
      have h1 : mergedParams physCW surveyPW optionsM0 "OmegaK0" = none := rfl
      have h2 : readParam (mergedParams physCW surveyPW optionsM0) "omega0" =
          JsNum.fin 1 := rfl
      have h3 : readParam (mergedParams physCW surveyPW optionsM0)
          "omegaLambda0" = JsNum.fin (7 / 10) := rfl
      have h4 : readParam (mergedParams physCW surveyPW optionsM0) "zeq" =
          JsNum.fin 3 := rfl
      rw [h1, h2, h3, h4]
      simp only [Option.elim_none, JsNum.fin_sub_fin, JsNum.fin_add_fin,
        JsNum.fin_mul_fin]
      rw [JsNum.fin_div_fin _ _ (by norm_num : (3 : ℚ) + 1 + 1 ≠ 0),
        JsNum.fin_div_fin _ _ (by norm_num : (3 : ℚ) + 1 ≠ 0)]
      simp only [JsNum.fin_sub_fin]
    have hLd : (createProps physCW surveyPW optionsM0).omegaLambda0 =
        JsNum.fin (7 / 10) := rfl
    rw [hM5, hRd, hKd, hLd]
    simp only [JsNum.fin_add_fin]
    intro hcontra
    have : (5 : ℚ) + (1 - 7 / 10) * (3 + 1) / (3 + 1 + 1) / (3 + 1) + 7 / 10 +
        (1 - (1 - 7 / 10) * (3 + 1) / (3 + 1 + 1) -
          (1 - 7 / 10) * (3 + 1) / (3 + 1 + 1) / (3 + 1) - 7 / 10) = 1 :=
      JsNum.fin.inj hcontra
    norm_num at this
theorem claim_C10_witness :
    (createProps physCW surveyPW optionsH0Gy).h0Gy = JsNum.fin 9 :=
  claim_C10_spread_override.1 physCW surveyPW optionsH0Gy 9 (by decide)

/-! ## C8: monotonicity of cosmic time -/

theorem foldl_add_fin_toQ (L : List (JsNum × QuadDiagnostics))
    (hL : ∀ x ∈ L, JsNum.IsFin x.1) :
    ∀ a : ℚ, L.foldl (fun x b => x + b.1) (JsNum.fin a) =
      JsNum.fin (a + (L.map (fun x => toQ x.1)).sum) := by
  induction L with
  | nil => intro a; simp
  | cons x xs ih =>
    intro a
    rcases (JsNum.isFin_iff x.1).mp (hL x (List.mem_cons_self x xs)) with
      ⟨c, hc⟩
    simp only [List.foldl_cons, List.map_cons, List.sum_cons, hc,
      JsNum.fin_add_fin]
    rw [ih (fun y hy => hL y (List.mem_cons_of_mem x hy)) (a + c)]
    refine congrArg JsNum.fin ?_
    have hq : toQ (JsNum.fin c) = c := rfl
    rw [hq]
    ring

theorem sum_take_mono (qs : List ℚ) (h : ∀ x ∈ qs, 0 ≤ x) (m1 m2 : ℕ)
    (hm : m1 ≤ m2) : (qs.take m1).sum ≤ (qs.take m2).sum := by
  have hsplit : qs.take m2 = (qs.take m2).take m1 ++ (qs.take m2).drop m1 :=
    (List.take_append_drop m1 (qs.take m2)).symm
  have htt : (qs.take m2).take m1 = qs.take m1 := by
    rw [List.take_take, Nat.min_eq_left hm]
  have hnn : 0 ≤ ((qs.take m2).drop m1).sum := by
    refine List.sum_nonneg ?_
    intro x hx
    exact h x (List.mem_of_mem_take (List.mem_of_mem_drop hx))
  calc (qs.take m1).sum = (qs.take m1).sum + 0 := by ring
    _ ≤ (qs.take m1).sum + ((qs.take m2).drop m1).sum := by linarith
    _ = (qs.take m2).sum := by
        conv_rhs => rw [hsplit]
        rw [List.sum_append, htt]

theorem tail_buildSPoints_getD (vs : List JsNum) (i : ℕ)
    (hi : i < vs.length) :
    (buildSPoints vs).tail.getD i JsNum.nan =
      vs.reverse.getD i JsNum.nan := by
  cases h : isInfinityIncluded vs with
  | true => rw [buildSPoints_of_included vs h, List.tail_cons]
  | false =>
    rw [buildSPoints_of_not_included vs h, List.tail_cons]
    have hi' : i < vs.reverse.length := by simp [hi]
    rw [List.getD_eq_getElem?_getD, List.getElem?_append, if_pos hi',
      ← List.getD_eq_getElem?_getD]

/-- C8: on one model, cosmic time `t` is antitone in stretch.  For a
descending stretch list (the shape the external stretch-value generator
contracts to produce), a finite positive `h0Gy`, and a quadrature
primitive honouring its contract whose `THs` total is finite and whose
`THs` segment integrals are all non-negative (the integrand is
non-negative), any two emitted results at finite stretches `s1 > s2`
have `t(s1) ≤ t(s2)`. -/
theorem claim_C8_time_antitone (quad : QuadPrimitive) (rsq : ℚ → ℚ)
    (p : CosmicExpansionModelProps) (vs : List JsNum) (g cT : ℚ)
    (hg : p.h0Gy = JsNum.fin g) (hgpos : 0 < g)
    (hdesc : vs.Pairwise (fun a b => JsNum.jsLe b a))
    (hths : (thsSegments quad rsq p vs).length = (buildSPoints vs).length - 1)
    (hsegs : ∀ x ∈ thsSegments quad rsq p vs,
      ∃ c : ℚ, 0 ≤ c ∧ x.1 = JsNum.fin c)
    (htot : (quad (THs rsq p) (buildSPoints vs).tail engineQuadOptions).total =
      JsNum.fin cT)
    (i j : ℕ) (ri rj : IntegrationResult) (s1 s2 : ℚ)
    (hri : (calculateExpansionForStretchValues quad rsq p vs)[i]? = some ri)
    (hrj : (calculateExpansionForStretchValues quad rsq p vs)[j]? = some rj)
    (hs1 : ri.s = JsNum.fin s1) (hs2 : rj.s = JsNum.fin s2)
    (hlt : s2 < s1) :
    JsNum.jsLe ri.t rj.t := by
  have hi : i < vs.length := by
    by_contra hcon
    push_neg at hcon
    rw [List.getElem?_eq_none (by rw [engine_length quad rsq p vs]; exact hcon)]
      at hri
    exact Option.noConfusion hri
  have hj : j < vs.length := by
    by_contra hcon
    push_neg at hcon
    rw [List.getElem?_eq_none (by rw [engine_length quad rsq p vs]; exact hcon)]
      at hrj
    exact Option.noConfusion hrj
  rw [engine_eq_runLoop,
    runLoop_getElem? _ _ _ _ _ _ _ vs.length i 0 _ _ hi, Nat.zero_add] at hri
  rw [engine_eq_runLoop,
    runLoop_getElem? _ _ _ _ _ _ _ vs.length j 0 _ _ hj, Nat.zero_add] at hrj
  have hri' := (Option.some_inj.mp hri).symm
  have hrj' := (Option.some_inj.mp hrj).symm
  have hsi : vs.reverse.getD i JsNum.nan = JsNum.fin s1 := by
    rw [← tail_buildSPoints_getD vs i hi, ← hs1, hri']
  have hsj : vs.reverse.getD j JsNum.nan = JsNum.fin s2 := by
    rw [← tail_buildSPoints_getD vs j hj, ← hs2, hrj']
  have hasc : vs.reverse.Pairwise JsNum.jsLe := by
    rw [List.pairwise_reverse]
    exact hdesc
  have hji : j < i := by
    rcases Nat.lt_trichotomy i j with hij | hij | hij
    · exfalso
      have hi' : i < vs.reverse.length := by simp [hi]
      have hj' : j < vs.reverse.length := by simp [hj]
      have hrel := List.pairwise_iff_get.mp hasc ⟨i, hi'⟩ ⟨j, hj'⟩ hij
      rw [List.get_eq_getElem, List.get_eq_getElem,
        ← List.getD_eq_getElem _ JsNum.nan hi',
        ← List.getD_eq_getElem _ JsNum.nan hj', hsi, hsj] at hrel
      have hle : s1 ≤ s2 := hrel
      linarith
    · exfalso
      rw [hij, hsj] at hsi
      have heq : s2 = s1 := JsNum.fin.inj hsi
      linarith
    · exact hij
  have hbp : (buildSPoints vs).length - 1 = (buildSPoints vs).tail.length := by
    cases h : isInfinityIncluded vs with
    | true => simp [buildSPoints_of_included vs h]
    | false => simp [buildSPoints_of_not_included vs h]
  have hlen : vs.length ≤ (thsSegments quad rsq p vs).length := by
    rw [hths, hbp]
    exact tail_buildSPoints_length vs
  have hacc : ∀ m : ℕ, m ≤ (thsSegments quad rsq p vs).length →
      accFrom (thsSegments quad rsq p vs) 0 (JsNum.fin 0) m =
        JsNum.fin ((((thsSegments quad rsq p vs).map
          (fun x => toQ x.1)).take m).sum) := by
    intro m hm
    rw [accFrom_eq_foldl _ m 0 _ (by omega), List.drop_zero,
      foldl_add_fin_toQ _ (fun x hx =>
        (JsNum.isFin_iff x.1).mpr
          (let ⟨c, _, hc⟩ := hsegs x (List.mem_of_mem_take hx); ⟨c, hc⟩))]
    refine congrArg JsNum.fin ?_
    rw [zero_add, List.map_take]
  have hqnn : ∀ x ∈ (thsSegments quad rsq p vs).map (fun x => toQ x.1),
      0 ≤ x := by
    intro x hx
    rcases List.mem_map.mp hx with ⟨y, hy, hyx⟩
    rcases hsegs y hy with ⟨c, hc0, hc⟩
    rw [← hyx, hc]
    exact hc0
  have hmono := sum_take_mono _ hqnn (j + 1) (i + 1) (by omega)
  have htni : ri.t = JsNum.fin ((cT -
      ((((thsSegments quad rsq p vs).map
        (fun x => toQ x.1)).take (i + 1)).sum)) / g) := by
    rw [hri', hacc (i + 1) (by omega), htot, hg, JsNum.fin_sub_fin,
      JsNum.fin_div_fin _ _ (ne_of_gt hgpos)]
  have htnj : rj.t = JsNum.fin ((cT -
      ((((thsSegments quad rsq p vs).map
        (fun x => toQ x.1)).take (j + 1)).sum)) / g) := by
    rw [hrj', hacc (j + 1) (by omega), htot, hg, JsNum.fin_sub_fin,
      JsNum.fin_div_fin _ _ (ne_of_gt hgpos)]
  rw [htni, htnj]
  have hsub : cT - ((((thsSegments quad rsq p vs).map
        (fun x => toQ x.1)).take (i + 1)).sum) ≤
      cT - ((((thsSegments quad rsq p vs).map
        (fun x => toQ x.1)).take (j + 1)).sum) := by
    linarith
  exact div_le_div_of_nonneg_right hsub (le_of_lt hgpos)

theorem claim_C8_witness :
    JsNum.jsLe
      ((calculateExpansionForStretchValues quadW rsqW propsW
          [JsNum.fin 3, JsNum.fin 2]).getD 1
        ⟨JsNum.nan, JsNum.nan, JsNum.nan, JsNum.nan⟩).t
      ((calculateExpansionForStretchValues quadW rsqW propsW
          [JsNum.fin 3, JsNum.fin 2]).getD 0
        ⟨JsNum.nan, JsNum.nan, JsNum.nan, JsNum.nan⟩).t :=
  claim_C8_time_antitone quadW rsqW propsW [JsNum.fin 3, JsNum.fin 2] 1 1
    rfl (by norm_num) (by decide) (by decide)
    (by
      intro x hx
      have hL : thsSegments quadW rsqW propsW [JsNum.fin 3, JsNum.fin 2] =
          [(JsNum.fin 0, ⟨0, 0, 0⟩), (JsNum.fin 1, ⟨0, 0, 0⟩),
            (JsNum.fin 1, ⟨0, 0, 0⟩)] := rfl
      rw [hL] at hx
      simp only [List.mem_cons, List.not_mem_nil, or_false] at hx
      rcases hx with h | h | h <;> subst h
      · exact ⟨0, le_refl 0, rfl⟩
      · exact ⟨1, by norm_num, rfl⟩
      · exact ⟨1, by norm_num, rfl⟩)
    rfl 1 0 _ _ 3 2 rfl rfl rfl rfl (by norm_num)
